import Mathlib

/-!
Shallow embedding of the reconciliation core of `govh-renew-ip`
(file `main.go`, current version): the types `record` and `recAndID`,
the provider-facing helpers `IDToRecord`, `PostNewRecord`, `UpdateRecord`,
`RefreshZone`, `NewRecord`, the discovery step `PollRecords`, the
reconciler `ManageRecords`, and the per-tick driver logic of `main`.

The OVH client is modelled as an oracle (`Client`) giving the response of
each provider endpoint; every embedded function additionally returns the
trace of provider calls it issues, so that claims about which provider
operations a pass performs can be stated and proved.
-/

namespace GovhRenewIP

/-- Go struct `record`: the payload sent to / received from the provider
(`fieldType`, `subDomain`, `target`, `ttl`). -/
structure record where
  fieldType : String
  subdomain : String
  target : String
  ttl : Int
deriving DecidableEq, Repr

/-- Go struct `recAndID`: a record together with its provider-assigned id,
used for the in-memory `previous` state. -/
structure recAndID where
  fieldType : String
  subdomain : String
  target : String
  ttl : Int
  id : Int
deriving DecidableEq, Repr

/-- One provider API call, as issued by the program. The OVH client used by
the source exposes GET (listing and per-record fetch), POST (record creation
and zone refresh), PUT (record update) and DELETE; the `delete` constructor
is present because the client offers it, though the program never issues it. -/
inductive Call where
  | list (fieldType : String)
  | fetch (id : Int)
  | post (r : record)
  | put (id : Int) (r : record)
  | refresh
  | delete (id : Int)
deriving DecidableEq, Repr

/-- `true` exactly on the mutating provider calls (create, update, refresh,
delete); listing and per-record fetches are read-only. -/
def Call.isMutation : Call → Bool
  | .post _ => true
  | .put _ _ => true
  | .refresh => true
  | .delete _ => true
  | _ => false

/-- `true` exactly on record-creation calls. -/
def Call.isPost : Call → Bool
  | .post _ => true
  | _ => false

/-- Oracle for the provider's responses: for each endpoint the program uses,
what the provider would answer. An `Except.error`/`some` is a failed call. -/
structure Client where
  listResp : String → Except String (List Int)
  recordResp : Int → Except String record
  postResp : record → Except String record
  putResp : Int → record → Option String
  refreshResp : Option String

/-- Go `IDToRecord`: GET one record by id; on failure returns the zero
record and the error. The trace is the single fetch call. -/
def IDToRecord (client : Client) (id : Int) :
    (record × Option String) × List Call :=
  match client.recordResp id with
  | .error e => ((⟨"", "", "", 0⟩, some e), [Call.fetch id])
  | .ok info => ((info, none), [Call.fetch id])

/-- Go `RefreshZone`: POST the zone refresh endpoint, returning its error. -/
def RefreshZone (client : Client) : Option String × List Call :=
  (client.refreshResp, [Call.refresh])

/-- Go `PostNewRecord`: POST the new record; on success, refresh the zone
and propagate the refresh error; on POST failure return that error. -/
def PostNewRecord (client : Client) (r : record) :
    Option String × List Call :=
  match client.postResp r with
  | .error e => (some e, [Call.post r])
  | .ok _ =>
    let rz := RefreshZone client
    (rz.1, Call.post r :: rz.2)

/-- Go `UpdateRecord`: PUT the record under the given id, returning the
provider's error. -/
def UpdateRecord (client : Client) (r : record) (id : Int) :
    Option String × List Call :=
  (client.putResp id r, [Call.put id r])

/-- Go `NewRecord`: build a record value from its four fields. -/
def NewRecord (fieldType : String) (subDomain : String) (target : String)
    (ttl : Int) : record :=
  ⟨fieldType, subDomain, target, ttl⟩

/-- The `for _, id := range recordsIDs` loop body of Go `PollRecords`:
fetch each id; on fetch failure log and skip the id; otherwise keep the
record exactly when its target equals the public IP. -/
def pollLoop (client : Client) (pubIP : String) :
    List Int → List recAndID × List Call
  | [] => ([], [])
  | id :: rest =>
    let f := IDToRecord client id
    let t := pollLoop client pubIP rest
    match f.1.2 with
    | some _ => (t.1, f.2 ++ t.2)
    | none =>
      let r := f.1.1
      (if r.target = pubIP then
        ⟨r.fieldType, r.subdomain, r.target, r.ttl, id⟩ :: t.1
       else t.1,
       f.2 ++ t.2)

/-- Go `PollRecords`: list the record ids of the field type; on listing
failure return `nil` and the error; otherwise fetch each id and keep the
records whose target equals the public IP. -/
def PollRecords (client : Client) (fieldType : String) (pubIP : String) :
    (List recAndID × Option String) × List Call :=
  match client.listResp fieldType with
  | .error e => (([], some e), [Call.list fieldType])
  | .ok ids =>
    let t := pollLoop client pubIP ids
    ((t.1, none), Call.list fieldType :: t.2)

/-- The `for _, prev := range previous` loop of Go `ManageRecords`: update
each previously known record to the new public IP, preserving its field
type, subdomain and ttl; each update's error is only logged. -/
def updateLoop (client : Client) (pubIP : String) :
    List recAndID → List Call
  | [] => []
  | prev :: rest =>
    let r := NewRecord prev.fieldType prev.subdomain pubIP prev.ttl
    let u := UpdateRecord client r prev.id
    u.2 ++ updateLoop client pubIP rest

/-- Go `ManageRecords` (the reconciler): poll the matching records; on
listing failure return `nil` and the error. If no record matches: when no
previous record is known, create one apex record with the public IP and
ttl 0 (propagating a creation or creation-refresh error); otherwise update
every previous record and refresh the zone once, logging failures. When
records match, they become the new previous state. -/
def ManageRecords (client : Client) (previous : List recAndID)
    (fieldType : String) (pubIP : String) :
    (List recAndID × Option String) × List Call :=
  match PollRecords client fieldType pubIP with
  | ((_, some e), tr) => (([], some e), tr)
  | ((records, none), tr) =>
    if records.length = 0 then
      if previous.length = 0 then
        let r := NewRecord fieldType "" pubIP 0
        let pn := PostNewRecord client r
        match pn.1 with
        | some e => (([], some e), tr ++ pn.2)
        | none => ((previous, none), tr ++ pn.2)
      else
        let upds := updateLoop client pubIP previous
        let rz := RefreshZone client
        ((previous, none), tr ++ upds ++ rz.2)
    else
      ((records, none), tr)

/-- The per-family body of the driver loop in Go `main`: resolve the public
IP (on failure skip the family, keeping its state), run the reconciler (on
failure skip, keeping its state), otherwise store the returned records. -/
def processFamily (client : Client) (resolve : String → Except String String)
    (fieldType : String) (prev : List recAndID) :
    List recAndID × List Call :=
  match resolve fieldType with
  | .error _ => (prev, [])
  | .ok pubIP =>
    let m := ManageRecords client prev fieldType pubIP
    match m.1.2 with
    | some _ => (prev, m.2)
    | none => (m.1.1, m.2)

/-- The driver's per-family state `previousRecs`, one record list for each
of the two tracked families "A" and "AAAA". -/
structure DriverState where
  a : List recAndID
  aaaa : List recAndID
deriving DecidableEq, Repr

/-- One tick of the driver loop in Go `main`: process family "A", then
family "AAAA", each with its own stored state; the trace is the
concatenation in that order. -/
def tick (client : Client) (resolve : String → Except String String)
    (st : DriverState) : DriverState × List Call :=
  let pa := processFamily client resolve "A" st.a
  let pb := processFamily client resolve "AAAA" st.aaaa
  (⟨pa.1, pb.1⟩, pa.2 ++ pb.2)

/-- `true` when fetching the given record id from the provider succeeds. -/
def fetchOk (client : Client) (id : Int) : Bool :=
  match client.recordResp id with
  | .ok _ => true
  | .error _ => false

/-- Demo client: one record (id 7) of type "A" already holds the current
address, so a pass is in the steady state. -/
def clientSteady : Client :=
  ⟨fun _ => .ok [7],
   fun id => if id = 7 then .ok ⟨"A", "", "198.51.100.4", 0⟩
             else .error "no such record",
   fun _ => .error "unused",
   fun _ _ => none,
   none⟩

/-- Demo client: the zone has no record of the requested type; creation,
updates and refresh all succeed. -/
def clientEmptyZone : Client :=
  ⟨fun _ => .ok [],
   fun _ => .error "no such record",
   fun r => .ok r,
   fun _ _ => none,
   none⟩

/-- Demo client: the zone has no record of the requested type and the
record-creation call fails. -/
def clientPostFails : Client :=
  ⟨fun _ => .ok [],
   fun _ => .error "no such record",
   fun _ => .error "create failed",
   fun _ _ => none,
   none⟩

/-- Demo client: the zone has no record of the requested type, creation
succeeds, but the zone refresh fails. -/
def clientRefreshFails : Client :=
  ⟨fun _ => .ok [],
   fun _ => .error "no such record",
   fun r => .ok r,
   fun _ _ => none,
   some "refresh failed"⟩

/-- Demo client: the record-listing call itself fails. -/
def clientListFails : Client :=
  ⟨fun _ => .error "list failed",
   fun _ => .error "no such record",
   fun _ => .error "unused",
   fun _ _ => none,
   none⟩

/-- Demo client: listing returns three ids, fetching id 2 fails, ids 1 and
3 hold the current address. -/
def clientPartialFetch : Client :=
  ⟨fun _ => .ok [1, 2, 3],
   fun id => if id = 2 then .error "fetch failed"
             else .ok ⟨"A", "", "198.51.100.4", 0⟩,
   fun _ => .error "unused",
   fun _ _ => none,
   none⟩

/-- Demo resolver: the IPv4 address resolves, the IPv6 resolution fails. -/
def resolveV4Only : String → Except String String :=
  fun ft => if ft = "AAAA" then .error "no ipv6 route" else .ok "198.51.100.4"

/-- A family's pass fails within a tick: either its address resolution
fails, or its reconciliation pass returns an error — the two `continue`
paths of the driver loop in Go `main`. -/
def familyFails (client : Client) (resolve : String → Except String String)
    (fieldType : String) (prev : List recAndID) : Prop :=
  (∃ e, resolve fieldType = .error e) ∨
  (∃ pubIP e, resolve fieldType = .ok pubIP ∧
    (ManageRecords client prev fieldType pubIP).1.2 = some e)

/-- The trace of a single per-record fetch is that one fetch call. -/
theorem IDToRecord_trace (client : Client) (id : Int) :
    (IDToRecord client id).2 = [Call.fetch id] := by
  unfold IDToRecord
  cases client.recordResp id <;> rfl

/-- The discovery loop issues exactly the per-id fetch calls, in order. -/
theorem pollLoop_trace (client : Client) (pubIP : String) (ids : List Int) :
    (pollLoop client pubIP ids).2 = ids.map Call.fetch := by
  induction ids with
  | nil => rfl
  | cons id rest ih =>
    unfold pollLoop
    cases h : (IDToRecord client id).1.2 <;>
      simp [h, IDToRecord_trace, ih]

/-- The discovery step's trace is the listing call followed by some fetch
calls. -/
theorem PollRecords_trace (client : Client) (fieldType pubIP : String) :
    ∃ ids : List Int,
      (PollRecords client fieldType pubIP).2 =
        Call.list fieldType :: ids.map Call.fetch := by
  unfold PollRecords
  cases h : client.listResp fieldType with
  | error e => exact ⟨[], rfl⟩
  | ok ids => exact ⟨ids, by simp [pollLoop_trace]⟩

/-- No call issued by the discovery step is a mutation. -/
theorem PollRecords_no_mutation (client : Client) (fieldType pubIP : String) :
    ∀ c ∈ (PollRecords client fieldType pubIP).2, c.isMutation = false := by
  obtain ⟨ids, h⟩ := PollRecords_trace client fieldType pubIP
  intro c hc
  rw [h] at hc
  simp only [List.mem_cons, List.mem_map] at hc
  rcases hc with rfl | ⟨i, -, rfl⟩
  · rfl
  · rfl

/-- The update fan-out issues exactly one update call per previous record,
in order, setting the target to the public IP and preserving the record's
field type, subdomain and ttl, addressed by its id. -/
theorem updateLoop_eq_map (client : Client) (pubIP : String)
    (l : List recAndID) :
    updateLoop client pubIP l =
      l.map (fun p => Call.put p.id ⟨p.fieldType, p.subdomain, pubIP, p.ttl⟩) := by
  induction l with
  | nil => rfl
  | cons p rest ih =>
    unfold updateLoop
    simp [UpdateRecord, NewRecord, ih]

/-- Records whose per-id fetch fails are skipped: the discovery loop's
result only depends on the ids whose fetch succeeds. -/
theorem pollLoop_filter (client : Client) (pubIP : String) (ids : List Int) :
    (pollLoop client pubIP ids).1 =
      (pollLoop client pubIP (ids.filter (fetchOk client))).1 := by
  induction ids with
  | nil => rfl
  | cons id rest ih =>
    cases h : client.recordResp id with
    | error e =>
      have hf : fetchOk client id = false := by simp [fetchOk, h]
      have h2 : (IDToRecord client id).1.2 = some e := by
        simp [IDToRecord, h]
      simp only [pollLoop, List.filter_cons, hf]
      rw [h2]
      simpa using ih
    | ok r =>
      have hf : fetchOk client id = true := by simp [fetchOk, h]
      have h2 : (IDToRecord client id).1 = (r, none) := by
        simp [IDToRecord, h]
      simp only [pollLoop, List.filter_cons, hf, if_true]
      rw [h2]
      rw [ih]

/-- Reconciler branch: the listing call failed, so the pass returns `nil`
and the error, having issued only the trace of the failed discovery. -/
theorem ManageRecords_listErr (client : Client) (previous : List recAndID)
    (ft ip e : String) (r0 : List recAndID) (tr : List Call)
    (h : PollRecords client ft ip = ((r0, some e), tr)) :
    ManageRecords client previous ft ip = (([], some e), tr) := by
  unfold ManageRecords
  rw [h]

/-- Reconciler branch: some record already matches, so the matching records
become the new state and only the discovery calls are issued. -/
theorem ManageRecords_steady (client : Client) (previous : List recAndID)
    (ft ip : String) (recs : List recAndID) (tr : List Call)
    (h : PollRecords client ft ip = ((recs, none), tr)) (hne : recs ≠ []) :
    ManageRecords client previous ft ip = ((recs, none), tr) := by
  unfold ManageRecords
  rw [h]
  simp [List.length_eq_zero, hne]

/-- Reconciler branch: no record matches and previous records exist, so
every previous record is updated and one refresh is issued; the state is
returned unchanged with no error, whatever the update and refresh
responses are. -/
theorem ManageRecords_update (client : Client) (previous : List recAndID)
    (ft ip : String) (tr : List Call)
    (h : PollRecords client ft ip = (([], none), tr)) (hne : previous ≠ []) :
    ManageRecords client previous ft ip =
      ((previous, none),
        tr ++ updateLoop client ip previous ++ [Call.refresh]) := by
  unfold ManageRecords
  rw [h]
  simp [List.length_eq_zero, hne, RefreshZone]

/-- Reconciler branch: no record matches and no previous record is known;
creation and the following refresh succeed, so one post and one refresh
are issued and the empty previous state is returned with no error. -/
theorem ManageRecords_create_ok (client : Client) (ft ip : String)
    (tr : List Call) (r0 : record)
    (h : PollRecords client ft ip = (([], none), tr))
    (hpost : client.postResp (NewRecord ft "" ip 0) = .ok r0)
    (href : client.refreshResp = none) :
    ManageRecords client [] ft ip =
      (([], none), tr ++ [Call.post ⟨ft, "", ip, 0⟩, Call.refresh]) := by
  unfold ManageRecords
  rw [h]
  simp only [NewRecord] at hpost
  simp [PostNewRecord, hpost, RefreshZone, href, NewRecord]

/-- Reconciler branch: creation is attempted but the post fails, so the
pass returns `nil` and the error; no refresh is issued. -/
theorem ManageRecords_create_postErr (client : Client) (ft ip e : String)
    (tr : List Call)
    (h : PollRecords client ft ip = (([], none), tr))
    (hpost : client.postResp (NewRecord ft "" ip 0) = .error e) :
    ManageRecords client [] ft ip =
      (([], some e), tr ++ [Call.post ⟨ft, "", ip, 0⟩]) := by
  unfold ManageRecords
  rw [h]
  simp only [NewRecord] at hpost
  simp [PostNewRecord, hpost, NewRecord]

/-- Reconciler branch: creation succeeds but the following refresh fails;
the refresh error propagates and the pass returns `nil` and that error. -/
theorem ManageRecords_create_refreshErr (client : Client) (ft ip e : String)
    (tr : List Call) (r0 : record)
    (h : PollRecords client ft ip = (([], none), tr))
    (hpost : client.postResp (NewRecord ft "" ip 0) = .ok r0)
    (href : client.refreshResp = some e) :
    ManageRecords client [] ft ip =
      (([], some e), tr ++ [Call.post ⟨ft, "", ip, 0⟩, Call.refresh]) := by
  unfold ManageRecords
  rw [h]
  simp only [NewRecord] at hpost
  simp [PostNewRecord, hpost, RefreshZone, href, NewRecord]

/-- C1: whenever the discovery step succeeds and yields a non-empty set of
matching records, the reconciliation pass performs no create, update or
refresh provider operation and returns exactly the matching records as the
new previous state, with no error. -/
theorem claim_C1 (client : Client) (previous : List recAndID)
    (fieldType pubIP : String)
    (hok : (PollRecords client fieldType pubIP).1.2 = none)
    (hne : (PollRecords client fieldType pubIP).1.1 ≠ []) :
    (ManageRecords client previous fieldType pubIP).1 =
      ((PollRecords client fieldType pubIP).1.1, none) ∧
    (ManageRecords client previous fieldType pubIP).2 =
      (PollRecords client fieldType pubIP).2 ∧
    ∀ c ∈ (ManageRecords client previous fieldType pubIP).2,
      c.isMutation = false := by
  have h : PollRecords client fieldType pubIP =
      (((PollRecords client fieldType pubIP).1.1, none),
       (PollRecords client fieldType pubIP).2) := by
    rw [← hok]
  have hm := ManageRecords_steady client previous fieldType pubIP
    (PollRecords client fieldType pubIP).1.1
    (PollRecords client fieldType pubIP).2 h hne
  refine ⟨by rw [hm], by rw [hm], ?_⟩
  rw [hm]
  exact PollRecords_no_mutation client fieldType pubIP

/-- C1 witness: the steady-state demo client at a concrete input. -/
theorem claim_C1_witness :
    (ManageRecords clientSteady [] "A" "198.51.100.4").1 =
      ((PollRecords clientSteady "A" "198.51.100.4").1.1, none) ∧
    (ManageRecords clientSteady [] "A" "198.51.100.4").2 =
      (PollRecords clientSteady "A" "198.51.100.4").2 :=
  ⟨(claim_C1 clientSteady [] "A" "198.51.100.4" (by decide) (by decide)).1,
   (claim_C1 clientSteady [] "A" "198.51.100.4" (by decide) (by decide)).2.1⟩

/-- C2: whenever discovery succeeds with no matching record but previous
records exist, one update is issued per previous record — setting the
target to the current address and preserving that record's field type,
subdomain and ttl, addressed by its id — then exactly one zone refresh,
and the original previous state is returned unchanged with no error. -/
theorem claim_C2 (client : Client) (previous : List recAndID)
    (fieldType pubIP : String)
    (hok : (PollRecords client fieldType pubIP).1.2 = none)
    (hempty : (PollRecords client fieldType pubIP).1.1 = [])
    (hne : previous ≠ []) :
    (ManageRecords client previous fieldType pubIP).1 = (previous, none) ∧
    (ManageRecords client previous fieldType pubIP).2 =
      (PollRecords client fieldType pubIP).2 ++
        previous.map
          (fun p => Call.put p.id ⟨p.fieldType, p.subdomain, pubIP, p.ttl⟩) ++
        [Call.refresh] := by
  have h : PollRecords client fieldType pubIP =
      (([], none), (PollRecords client fieldType pubIP).2) := by
    rw [← hok, ← hempty]
  have hm := ManageRecords_update client previous fieldType pubIP
    (PollRecords client fieldType pubIP).2 h hne
  rw [hm, updateLoop_eq_map]
  exact ⟨rfl, rfl⟩

/-- C2 witness: the spec's two-record scenario (ids 10 and 11, address
"203.0.113.7") against the empty-zone demo client. -/
theorem claim_C2_witness :
    (ManageRecords clientEmptyZone
        [⟨"A", "home", "198.51.100.1", 300, 10⟩,
         ⟨"A", "office", "198.51.100.1", 300, 11⟩] "A" "203.0.113.7").1 =
      ([⟨"A", "home", "198.51.100.1", 300, 10⟩,
        ⟨"A", "office", "198.51.100.1", 300, 11⟩], none) ∧
    (ManageRecords clientEmptyZone
        [⟨"A", "home", "198.51.100.1", 300, 10⟩,
         ⟨"A", "office", "198.51.100.1", 300, 11⟩] "A" "203.0.113.7").2 =
      [Call.list "A",
       Call.put 10 ⟨"A", "home", "203.0.113.7", 300⟩,
       Call.put 11 ⟨"A", "office", "203.0.113.7", 300⟩,
       Call.refresh] := by
  have h := claim_C2 clientEmptyZone
    [⟨"A", "home", "198.51.100.1", 300, 10⟩,
     ⟨"A", "office", "198.51.100.1", 300, 11⟩] "A" "203.0.113.7"
    (by decide) (by decide) (by decide)
  exact ⟨h.1, by rw [h.2]; rfl⟩

/-- C3: whenever discovery succeeds with no matching record and no previous
record is known, exactly one record of the family's type is created with
empty subdomain, target the current address and ttl 0, followed by exactly
one zone refresh, and on success the returned previous state is empty. -/
theorem claim_C3 (client : Client) (fieldType pubIP : String) (r0 : record)
    (hok : (PollRecords client fieldType pubIP).1.2 = none)
    (hempty : (PollRecords client fieldType pubIP).1.1 = [])
    (hpost : client.postResp (NewRecord fieldType "" pubIP 0) = .ok r0)
    (href : client.refreshResp = none) :
    (ManageRecords client [] fieldType pubIP).1 = ([], none) ∧
    (ManageRecords client [] fieldType pubIP).2 =
      (PollRecords client fieldType pubIP).2 ++
        [Call.post ⟨fieldType, "", pubIP, 0⟩, Call.refresh] := by
  have h : PollRecords client fieldType pubIP =
      (([], none), (PollRecords client fieldType pubIP).2) := by
    rw [← hok, ← hempty]
  have hm := ManageRecords_create_ok client fieldType pubIP
    (PollRecords client fieldType pubIP).2 r0 h hpost href
  rw [hm]
  exact ⟨rfl, rfl⟩

/-- C3 witness: first-ever creation against the empty-zone demo client. -/
theorem claim_C3_witness :
    (ManageRecords clientEmptyZone [] "A" "203.0.113.7").1 = ([], none) ∧
    (ManageRecords clientEmptyZone [] "A" "203.0.113.7").2 =
      [Call.list "A", Call.post ⟨"A", "", "203.0.113.7", 0⟩, Call.refresh] := by
  have h := claim_C3 clientEmptyZone "A" "203.0.113.7"
    ⟨"A", "", "203.0.113.7", 0⟩ (by decide) (by decide) rfl rfl
  exact ⟨h.1, by rw [h.2]; rfl⟩

/-- C7: whenever the listing call succeeds, the discovery step returns no
error, and its matching set equals the one computed over only the ids whose
individual fetch succeeds — failed ids are skipped and do not abort the
pass. -/
theorem claim_C7 (client : Client) (fieldType pubIP : String)
    (ids : List Int)
    (hlist : client.listResp fieldType = .ok ids) :
    (PollRecords client fieldType pubIP).1.2 = none ∧
    (PollRecords client fieldType pubIP).1.1 =
      (pollLoop client pubIP (ids.filter (fetchOk client))).1 := by
  constructor
  · simp [PollRecords, hlist]
  · have h1 : (PollRecords client fieldType pubIP).1.1 =
        (pollLoop client pubIP ids).1 := by
      simp [PollRecords, hlist]
    rw [h1, pollLoop_filter]

/-- C7 witness: three listed ids with the middle fetch failing; the two
fetchable records with the current address form the matching set. -/
theorem claim_C7_witness :
    (PollRecords clientPartialFetch "A" "198.51.100.4").1.2 = none ∧
    (PollRecords clientPartialFetch "A" "198.51.100.4").1.1 =
      (pollLoop clientPartialFetch "198.51.100.4"
        ([1, 2, 3].filter (fetchOk clientPartialFetch))).1 :=
  claim_C7 clientPartialFetch "A" "198.51.100.4" [1, 2, 3] rfl

/-- C4 counterexample: with an empty zone, no previous record and a failing
creation call, the pass returns an error — refuting the claim that a create
failure does not cause the pass to return an error. -/
theorem claim_C4_counterexample :
    (ManageRecords clientPostFails [] "A" "203.0.113.7").1.2 =
      some "create failed" := rfl

/-- C4 (amended): a failing update is only logged and does not prevent the
remaining updates from being attempted, and does not make the pass fail;
a failing creation, however, aborts the pass: the pass returns the create
error together with an empty record set. -/
theorem claim_C4_amended (client : Client) (previous : List recAndID)
    (fieldType pubIP : String)
    (hok : (PollRecords client fieldType pubIP).1.2 = none)
    (hempty : (PollRecords client fieldType pubIP).1.1 = []) :
    (previous ≠ [] →
      (∀ p ∈ previous,
        Call.put p.id ⟨p.fieldType, p.subdomain, pubIP, p.ttl⟩ ∈
          (ManageRecords client previous fieldType pubIP).2) ∧
      (ManageRecords client previous fieldType pubIP).1.2 = none) ∧
    (previous = [] →
      ∀ e, client.postResp (NewRecord fieldType "" pubIP 0) = .error e →
        (ManageRecords client previous fieldType pubIP).1 = ([], some e)) := by
  have h : PollRecords client fieldType pubIP =
      (([], none), (PollRecords client fieldType pubIP).2) := by
    rw [← hok, ← hempty]
  constructor
  · intro hne
    have hm := ManageRecords_update client previous fieldType pubIP
      (PollRecords client fieldType pubIP).2 h hne
    constructor
    · intro p hp
      rw [hm, updateLoop_eq_map]
      simp only [List.mem_append, List.mem_map]
      exact Or.inl (Or.inr ⟨p, hp, rfl⟩)
    · rw [hm]
  · intro hprev e hpost
    subst hprev
    rw [ManageRecords_create_postErr client fieldType pubIP e
      (PollRecords client fieldType pubIP).2 h hpost]

/-- C4 witness: the amended claim applied to the failing-creation demo
client with no previous record. -/
theorem claim_C4_amended_witness :
    (ManageRecords clientPostFails [] "A" "203.0.113.7").1 =
      ([], some "create failed") :=
  (claim_C4_amended clientPostFails [] "A" "203.0.113.7"
    (by decide) (by decide)).2 rfl "create failed" rfl

/-- C5 counterexample: with an empty zone and no previous record, creation
succeeds but the following zone refresh fails, and the pass returns that
refresh error — refuting the claim that a refresh failure never causes the
pass to return an error. -/
theorem claim_C5_counterexample :
    (ManageRecords clientRefreshFails [] "A" "203.0.113.7").1.2 =
      some "refresh failed" := rfl

/-- C5 (amended): after the fan-out updates, a refresh failure is only
logged and non-fatal — the pass still returns the previous state with no
error, and nothing after the single refresh is issued; after a creation,
a refresh failure propagates as the pass's error, though the created
record is not undone or retried (the trace ends at the single refresh). -/
theorem claim_C5_amended (client : Client) (previous : List recAndID)
    (fieldType pubIP : String)
    (hok : (PollRecords client fieldType pubIP).1.2 = none)
    (hempty : (PollRecords client fieldType pubIP).1.1 = []) :
    (previous ≠ [] →
      (ManageRecords client previous fieldType pubIP).1 = (previous, none) ∧
      (ManageRecords client previous fieldType pubIP).2 =
        (PollRecords client fieldType pubIP).2 ++
          previous.map
            (fun p => Call.put p.id ⟨p.fieldType, p.subdomain, pubIP, p.ttl⟩) ++
          [Call.refresh]) ∧
    (previous = [] →
      ∀ r0 e, client.postResp (NewRecord fieldType "" pubIP 0) = .ok r0 →
        client.refreshResp = some e →
        (ManageRecords client previous fieldType pubIP).1 = ([], some e) ∧
        (ManageRecords client previous fieldType pubIP).2 =
          (PollRecords client fieldType pubIP).2 ++
            [Call.post ⟨fieldType, "", pubIP, 0⟩, Call.refresh]) := by
  have h : PollRecords client fieldType pubIP =
      (([], none), (PollRecords client fieldType pubIP).2) := by
    rw [← hok, ← hempty]
  constructor
  · intro hne
    have hm := ManageRecords_update client previous fieldType pubIP
      (PollRecords client fieldType pubIP).2 h hne
    rw [hm, updateLoop_eq_map]
    exact ⟨rfl, rfl⟩
  · intro hprev r0 e hpost href
    subst hprev
    have hm := ManageRecords_create_refreshErr client fieldType pubIP e
      (PollRecords client fieldType pubIP).2 r0 h hpost href
    rw [hm]
    exact ⟨rfl, rfl⟩

/-- C5 witness: the amended claim applied to the failing-refresh demo
client with no previous record. -/
theorem claim_C5_amended_witness :
    (ManageRecords clientRefreshFails [] "A" "203.0.113.7").1 =
      ([], some "refresh failed") :=
  ((claim_C5_amended clientRefreshFails [] "A" "203.0.113.7"
    (by decide) (by decide)).2 rfl ⟨"A", "", "203.0.113.7", 0⟩
    "refresh failed" rfl rfl).1

/-- C6: for either tracked family, when the initial listing call fails the
pass returns the error having issued only that listing call (no create,
update, fetch or refresh), the driver leaves that family's stored state
unmodified for the tick, and the next tick issues the listing call for
that family again. -/
theorem claim_C6 (client : Client) (resolve : String → Except String String)
    (st : DriverState) (previous : List recAndID) (fieldType pubIP e : String)
    (hres : resolve fieldType = .ok pubIP)
    (hlist : client.listResp fieldType = .error e) :
    ManageRecords client previous fieldType pubIP =
      (([], some e), [Call.list fieldType]) ∧
    (fieldType = "A" →
      (tick client resolve st).1.a = st.a ∧
      Call.list "A" ∈ (tick client resolve (tick client resolve st).1).2) ∧
    (fieldType = "AAAA" →
      (tick client resolve st).1.aaaa = st.aaaa ∧
      Call.list "AAAA" ∈ (tick client resolve (tick client resolve st).1).2) := by
  have hp : PollRecords client fieldType pubIP =
      (([], some e), [Call.list fieldType]) := by
    simp [PollRecords, hlist]
  have hm : ∀ prev : List recAndID,
      ManageRecords client prev fieldType pubIP =
        (([], some e), [Call.list fieldType]) := fun prev =>
    ManageRecords_listErr client prev fieldType pubIP e [] [Call.list fieldType] hp
  refine ⟨hm previous, ?_, ?_⟩
  · rintro rfl
    constructor
    · simp [tick, processFamily, hres, hm]
    · simp [tick, processFamily, hres, hm]
  · rintro rfl
    constructor
    · simp [tick, processFamily, hres, hm]
    · simp [tick, processFamily, hres, hm]

/-- C6 witness: a failing listing for family "A" against the demo resolver,
from a non-empty stored state. -/
theorem claim_C6_witness :
    ManageRecords clientListFails [⟨"A", "home", "198.51.100.1", 300, 10⟩]
        "A" "198.51.100.4" =
      (([], some "list failed"), [Call.list "A"]) ∧
    (tick clientListFails resolveV4Only
      ⟨[⟨"A", "home", "198.51.100.1", 300, 10⟩], []⟩).1.a =
      [⟨"A", "home", "198.51.100.1", 300, 10⟩] :=
  ⟨(claim_C6 clientListFails resolveV4Only
      ⟨[⟨"A", "home", "198.51.100.1", 300, 10⟩], []⟩
      [⟨"A", "home", "198.51.100.1", 300, 10⟩] "A" "198.51.100.4"
      "list failed" rfl rfl).1,
   ((claim_C6 clientListFails resolveV4Only
      ⟨[⟨"A", "home", "198.51.100.1", 300, 10⟩], []⟩
      [⟨"A", "home", "198.51.100.1", 300, 10⟩] "A" "198.51.100.4"
      "list failed" rfl rfl).2.1 rfl).1⟩

/-- C8: within one tick the families are processed independently in the
fixed order "A" then "AAAA" (the tick's calls are the "A" side's calls
followed by the "AAAA" side's), and for either family: if that family's
resolution or reconciliation fails, its stored state is left unchanged,
while the other family's pass still runs and, on success, its state is
updated to the reconciler's result. -/
theorem claim_C8 (client : Client) (resolve : String → Except String String)
    (st : DriverState) :
    ((tick client resolve st).2 =
      (processFamily client resolve "A" st.a).2 ++
        (processFamily client resolve "AAAA" st.aaaa).2) ∧
    (familyFails client resolve "AAAA" st.aaaa →
      (tick client resolve st).1.aaaa = st.aaaa ∧
      ∀ pubIP, resolve "A" = .ok pubIP →
        (ManageRecords client st.a "A" pubIP).1.2 = none →
        (tick client resolve st).1.a =
          (ManageRecords client st.a "A" pubIP).1.1) ∧
    (familyFails client resolve "A" st.a →
      (tick client resolve st).1.a = st.a ∧
      ∀ pubIP, resolve "AAAA" = .ok pubIP →
        (ManageRecords client st.aaaa "AAAA" pubIP).1.2 = none →
        (tick client resolve st).1.aaaa =
          (ManageRecords client st.aaaa "AAAA" pubIP).1.1) := by
  have hfail : ∀ ft prev, familyFails client resolve ft prev →
      (processFamily client resolve ft prev).1 = prev := by
    intro ft prev h
    rcases h with ⟨e, he⟩ | ⟨ip, e, hip, herr⟩
    · simp [processFamily, he]
    · simp [processFamily, hip, herr]
  have hsucc : ∀ ft prev pubIP, resolve ft = .ok pubIP →
      (ManageRecords client prev ft pubIP).1.2 = none →
      (processFamily client resolve ft prev).1 =
        (ManageRecords client prev ft pubIP).1.1 := by
    intro ft prev pubIP hres hok
    simp [processFamily, hres, hok]
  refine ⟨rfl, ?_, ?_⟩
  · intro hB
    refine ⟨?_, ?_⟩
    · simp [tick, hfail "AAAA" st.aaaa hB]
    · intro pubIP hres hok
      simp [tick, hsucc "A" st.a pubIP hres hok]
  · intro hA
    refine ⟨?_, ?_⟩
    · simp [tick, hfail "A" st.a hA]
    · intro pubIP hres hok
      simp [tick, hsucc "AAAA" st.aaaa pubIP hres hok]

/-- C8 witness: the steady-state client with a resolver for which only the
IPv4 address resolves: the AAAA side fails, its state is unchanged, and the
"A" side's state is updated to the reconciler's result. -/
theorem claim_C8_witness :
    (tick clientSteady resolveV4Only ⟨[], []⟩).1.aaaa = [] ∧
    (tick clientSteady resolveV4Only ⟨[], []⟩).1.a =
      (ManageRecords clientSteady [] "A" "198.51.100.4").1.1 := by
  have h := claim_C8 clientSteady resolveV4Only ⟨[], []⟩
  have hB : familyFails clientSteady resolveV4Only "AAAA" [] :=
    Or.inl ⟨"no ipv6 route", rfl⟩
  exact ⟨(h.2.1 hB).1, (h.2.1 hB).2 "198.51.100.4" rfl (by decide)⟩

/-- C10: whenever the reconciler returns an error, the record set returned
alongside it is empty (not the caller's previous state); the family's state
survives only because the driver keeps its stored state when an error is
reported. -/
theorem claim_C10 (client : Client) (previous : List recAndID)
    (fieldType pubIP e0 : String)
    (herr : (ManageRecords client previous fieldType pubIP).1.2 = some e0) :
    (ManageRecords client previous fieldType pubIP).1.1 = [] ∧
    ∀ resolve : String → Except String String,
      resolve fieldType = .ok pubIP →
      (processFamily client resolve fieldType previous).1 = previous := by
  constructor
  · rcases hpoll : PollRecords client fieldType pubIP with ⟨⟨recs, ev⟩, tr⟩
    cases ev with
    | some e =>
      rw [ManageRecords_listErr client previous fieldType pubIP e recs tr hpoll]
    | none =>
      by_cases hrecs : recs = []
      · subst hrecs
        by_cases hprev : previous = []
        · subst hprev
          cases hpost : client.postResp (NewRecord fieldType "" pubIP 0) with
          | error e =>
            rw [ManageRecords_create_postErr client fieldType pubIP e tr
              hpoll hpost]
          | ok r0 =>
            cases href : client.refreshResp with
            | none =>
              rw [ManageRecords_create_ok client fieldType pubIP tr r0
                hpoll hpost href] at herr
              exact absurd herr (by simp)
            | some e =>
              rw [ManageRecords_create_refreshErr client fieldType pubIP e tr
                r0 hpoll hpost href]
        · rw [ManageRecords_update client previous fieldType pubIP tr
            hpoll hprev] at herr
          exact absurd herr (by simp)
      · rw [ManageRecords_steady client previous fieldType pubIP recs tr
          hpoll hrecs] at herr
        exact absurd herr (by simp)
  · intro resolve hres
    simp [processFamily, hres, herr]

/-- C10 witness: the failing-listing demo client at a concrete input. -/
theorem claim_C10_witness :
    (ManageRecords clientListFails
      [⟨"A", "home", "198.51.100.1", 300, 10⟩] "A" "198.51.100.4").1.1 = [] :=
  (claim_C10 clientListFails [⟨"A", "home", "198.51.100.1", 300, 10⟩]
    "A" "198.51.100.4" "list failed" rfl).1

/-- Case analysis of the reconciler's trace: it is always the (read-only)
discovery calls, possibly followed by either one creation (with or without
its refresh) or the per-previous-record updates and one refresh. -/
theorem ManageRecords_trace_cases (client : Client) (previous : List recAndID)
    (fieldType pubIP : String) :
    ∃ pn : List Call,
      (∀ c ∈ pn, c.isMutation = false) ∧
      ((ManageRecords client previous fieldType pubIP).2 = pn ∨
       (ManageRecords client previous fieldType pubIP).2 =
         pn ++ [Call.post ⟨fieldType, "", pubIP, 0⟩] ∨
       (ManageRecords client previous fieldType pubIP).2 =
         pn ++ [Call.post ⟨fieldType, "", pubIP, 0⟩, Call.refresh] ∨
       (ManageRecords client previous fieldType pubIP).2 =
         pn ++ previous.map
           (fun p => Call.put p.id ⟨p.fieldType, p.subdomain, pubIP, p.ttl⟩) ++
         [Call.refresh]) := by
  rcases hpoll : PollRecords client fieldType pubIP with ⟨⟨recs, ev⟩, tr⟩
  have hben : ∀ c ∈ tr, c.isMutation = false := by
    have h0 := PollRecords_no_mutation client fieldType pubIP
    rw [hpoll] at h0
    exact h0
  refine ⟨tr, hben, ?_⟩
  cases ev with
  | some e =>
    left
    rw [ManageRecords_listErr client previous fieldType pubIP e recs tr hpoll]
  | none =>
    by_cases hrecs : recs = []
    · subst hrecs
      by_cases hprev : previous = []
      · subst hprev
        cases hpost : client.postResp (NewRecord fieldType "" pubIP 0) with
        | error e =>
          right; left
          rw [ManageRecords_create_postErr client fieldType pubIP e tr
            hpoll hpost]
        | ok r0 =>
          cases href : client.refreshResp with
          | none =>
            right; right; left
            rw [ManageRecords_create_ok client fieldType pubIP tr r0
              hpoll hpost href]
          | some e =>
            right; right; left
            rw [ManageRecords_create_refreshErr client fieldType pubIP e tr
              r0 hpoll hpost href]
      · right; right; right
        rw [ManageRecords_update client previous fieldType pubIP tr
          hpoll hprev, updateLoop_eq_map]
    · left
      rw [ManageRecords_steady client previous fieldType pubIP recs tr
        hpoll hrecs]

/-- C9: a reconciliation pass never issues a delete call, issues update
calls only for record ids present in the given previous state, and issues
at most one creation call; records neither in the previous state nor
created by the pass are never mutated. -/
theorem claim_C9 (client : Client) (previous : List recAndID)
    (fieldType pubIP : String) :
    (∀ i, Call.delete i ∉ (ManageRecords client previous fieldType pubIP).2) ∧
    (∀ i r, Call.put i r ∈ (ManageRecords client previous fieldType pubIP).2 →
      i ∈ previous.map recAndID.id) ∧
    ((ManageRecords client previous fieldType pubIP).2.filter
      Call.isPost).length ≤ 1 := by
  obtain ⟨pn, hben, hcase⟩ :=
    ManageRecords_trace_cases client previous fieldType pubIP
  have hdel : ∀ i, Call.delete i ∉ pn := by
    intro i hc
    have := hben _ hc
    simp [Call.isMutation] at this
  have hput : ∀ i r, Call.put i r ∉ pn := by
    intro i r hc
    have := hben _ hc
    simp [Call.isMutation] at this
  have hpostf : pn.filter Call.isPost = [] := by
    rw [List.filter_eq_nil_iff]
    intro c hc
    have h0 := hben _ hc
    cases c <;> simp_all [Call.isMutation, Call.isPost]
  have hmapput : ∀ c ∈ previous.map
      (fun p => Call.put p.id ⟨p.fieldType, p.subdomain, pubIP, p.ttl⟩),
      c.isPost = false := by
    intro c hc
    obtain ⟨p, -, rfl⟩ := List.mem_map.mp hc
    rfl
  have hmapputf : (previous.map
      (fun p => Call.put p.id ⟨p.fieldType, p.subdomain, pubIP, p.ttl⟩)).filter
      Call.isPost = [] := by
    rw [List.filter_eq_nil_iff]
    intro c hc
    simp [hmapput c hc]
  rcases hcase with h | h | h | h <;> rw [h]
  · refine ⟨fun i => hdel i, fun i r hc => absurd hc (hput i r), ?_⟩
    simp [hpostf]
  · refine ⟨?_, ?_, ?_⟩
    · intro i hc
      rcases List.mem_append.mp hc with hc | hc
      · exact hdel i hc
      · simp at hc
    · intro i r hc
      rcases List.mem_append.mp hc with hc | hc
      · exact absurd hc (hput i r)
      · simp at hc
    · simp [List.filter_append, hpostf, Call.isPost]
  · refine ⟨?_, ?_, ?_⟩
    · intro i hc
      rcases List.mem_append.mp hc with hc | hc
      · exact hdel i hc
      · simp at hc
    · intro i r hc
      rcases List.mem_append.mp hc with hc | hc
      · exact absurd hc (hput i r)
      · simp at hc
    · simp [List.filter_append, hpostf, Call.isPost]
  · refine ⟨?_, ?_, ?_⟩
    · intro i hc
      rcases List.mem_append.mp hc with hc | hc
      rcases List.mem_append.mp hc with hc | hc
      · exact hdel i hc
      · obtain ⟨p, -, hp⟩ := List.mem_map.mp hc
        exact absurd hp (by simp)
      · simp at hc
    · intro i r hc
      rcases List.mem_append.mp hc with hc | hc
      rcases List.mem_append.mp hc with hc | hc
      · exact absurd hc (hput i r)
      · obtain ⟨p, hp, hpe⟩ := List.mem_map.mp hc
        have : i = p.id := by
          cases hpe
          rfl
        subst this
        exact List.mem_map.mpr ⟨p, hp, rfl⟩
      · simp at hc
    · simp [List.filter_append, hpostf, hmapputf, Call.isPost]

end GovhRenewIP
